import Mathlib

set_option maxRecDepth 100000

/-!
Verification development for the RAG notebook (`src/RAG/rag_notebook.ipynb`).

The notebook's algorithmic core is embedded shallowly:

* Python string operations (`split`, `strip`, `contains`, `startswith`) are
  modelled by structural recursion over `String.data` character lists, so that
  every definition is executable and kernel-reducible.
* External collaborators are parameters: the dateutil parser is a predicate
  `dparse : String → Bool`, the tokenizer is `tok : String → Nat`, the
  embedding service is `embed : String → List ℚ`, `math.sqrt` is
  `sqrt : ℚ → ℚ`, and the completion service is
  `complete : String → Nat → Except String String`.
* IEEE floating point is modelled by exact rationals; the NaN produced by
  scipy's cosine distance on a zero vector (`0.0/0.0`) is modelled as `none`
  in `Option ℚ`.
-/

/-! ### Python-style string primitives (character-list level) -/

/-- Python `s.split(sep)` for a one-character separator, on character lists:
splits at every occurrence of `sep`; always returns a non-empty list. -/
def charSplit (sep : Char) : List Char → List (List Char)
  | [] => [[]]
  | c :: cs =>
    if c = sep then [] :: charSplit sep cs
    else
      match charSplit sep cs with
      | [] => [[c]]
      | p :: ps => (c :: p) :: ps

/-- Drop matching characters from both ends, as Python `str.strip` does. -/
def stripEnds (p : Char → Bool) (cs : List Char) : List Char :=
  ((cs.dropWhile p).reverse.dropWhile p).reverse

/-- Python `s.split("–")` (the separator used by the notebook is the
one-character string `"–"`). -/
def pySplitOn (sep : Char) (s : String) : List String :=
  (charSplit sep s.data).map String.mk

/-- Python `s.strip()` (whitespace from both ends). -/
def pyStrip (s : String) : String :=
  String.mk (stripEnds Char.isWhitespace s.data)

/-- Pandas `str.contains(c)` for a one-character pattern. -/
def pyContainsChar (c : Char) (s : String) : Bool :=
  s.data.contains c

/-- Python `s.startswith(p)`. -/
def pyStartsWith (p s : String) : Bool :=
  p.data.isPrefixOf s.data

/-! ### Fragment Preprocessor (notebook cells 14, 16, 17) -/

/-- A line surviving preprocessing.  `text` is the (possibly date-prefixed)
line, `dateTag` is the value of the notebook's `current_date` accumulator for
this line (`none` when no date had been parsed yet), and `prefixed` is a ghost
flag recording whether the carry-forward branch rewrote the line. -/
structure PreFragment where
  text : String
  dateTag : Option String
  prefixed : Bool
deriving DecidableEq

/-- Cell 16's `is_date`: take the text before the first `–`, strip it, and ask
the external date parser (modelled by the predicate `dparse`) whether it
parses; on success return the stripped string. -/
def is_date (dparse : String → Bool) (s : String) : Bool × Option String :=
  let possible := pyStrip ((pySplitOn '–' s).headD s)
  if dparse possible then (true, some possible) else (false, none)

/-- Cell 17's loop: scan lines keeping a `current_date` accumulator; a line
that parses as dated updates the accumulator, a line that does not and has a
current date set is rewritten to `current_date ++ " – " ++ line`. -/
def carryForward (dparse : String → Bool) : Option String → List String → List PreFragment
  | _, [] => []
  | cur, line :: rest =>
    let r := is_date dparse line
    let cur' := if r.1 then r.2 else cur
    let f : PreFragment :=
      match cur', r.1 with
      | some c, false => ⟨c ++ " – " ++ line, some c, true⟩
      | x, _ => ⟨line, x, false⟩
    f :: carryForward dparse cur' rest

/-- Cell 14's filter: drop empty lines and section lines starting with `==`. -/
def cleanLines (lines : List String) : List String :=
  lines.filter (fun l => l.length > 0 && !(pyStartsWith "==" l))

/-- Cell 17's last line: keep only rows whose text contains `–`. -/
def dateQualify (dparse : String → Bool) (lines : List String) : List PreFragment :=
  (carryForward dparse none lines).filter (fun f => pyContainsChar '–' f.text)

/-- The whole preprocessing pipeline of cells 14–17. -/
def preprocess (dparse : String → Bool) (lines : List String) : List PreFragment :=
  dateQualify dparse (cleanLines lines)

/-- A concrete stand-in for dateutil's best-effort parser, used only to
instantiate closed statements: accepts exactly `YYYY-MM-DD` digit strings
(which dateutil parses) and rejects strings such as `"B"` or `"a"` (on which
dateutil raises, i.e. `is_date` returns false). -/
def parseISO (s : String) : Bool :=
  match s.data with
  | [a, b, c, d, '-', e, f, '-', g, h] => [a, b, c, d, e, f, g, h].all Char.isDigit
  | _ => false

example : parseISO "2023-01-01" = true := by decide
example : parseISO "B" = false := by decide
example : pyStrip ((pySplitOn '–' "2023-01-01 – A").headD "z") = "2023-01-01" := by decide
example : (preprocess parseISO ["2023-01-01 – A", "B"]).map PreFragment.text
    = ["2023-01-01 – A", "2023-01-01 – B"] := by decide

/-! ### Corpus Store (cells 23 and 27) -/

/-- A corpus row: a text fragment with its embedding vector.  The scalar type
is a parameter; the query-time pipeline instantiates it with `ℚ` (exact
rationals standing for the floating-point values). -/
structure StoredFragment (α : Type) where
  text : String
  embedding : List α
deriving DecidableEq

/-- Python's `", ".join` used by `str(list)`. -/
def commaJoin : List String → String
  | [] => ""
  | [s] => s
  | s :: ss => s ++ ", " ++ commaJoin ss

/-- How `df.to_csv` renders the embeddings cell: Python `str(list)`, i.e.
`"[" ++ render x0 ++ ", " ++ render x1 ++ ... ++ "]"`, with `render` the
numeric formatting of the chosen representation. -/
def embToString {α : Type} (render : α → String) (e : List α) : String :=
  "[" ++ commaJoin (e.map render) ++ "]"

/-- Cell 23, `df.to_csv`: persist each row's text and the rendered embedding.
The CSV field escaping itself is pandas I/O glue (out of core scope per the
spec), so rows are modelled structurally as pairs. -/
def save {α : Type} (render : α → String) (corpus : List (StoredFragment α)) :
    List (String × String) :=
  corpus.map (fun f => (f.text, embToString render f.embedding))

/-- A character Python `str.strip("[]")` removes. -/
def isBracket (c : Char) : Bool := c = '[' || c = ']'

/-- Python `x.strip("[]")`. -/
def pyStripBrackets (s : String) : String :=
  String.mk (stripEnds isBracket s.data)

/-- Cell 27, `np.fromstring(x.strip("[]"), sep=",")`: strip the brackets,
split on commas, and parse each chunk numerically (`parseNum` models the
float parser, which tolerates surrounding spaces). -/
def fromString {α : Type} (parseNum : String → α) (s : String) : List α :=
  (charSplit ',' (pyStripBrackets s).data).map (fun cs => parseNum (String.mk cs))

/-- Cell 27, `pd.read_csv` plus the `np.fromstring` conversion. -/
def load {α : Type} (parseNum : String → α) (rows : List (String × String)) :
    List (StoredFragment α) :=
  rows.map (fun r => ⟨r.1, fromString parseNum r.2⟩)

/-! ### Relevance Ranker (cells 29 and 31) -/

/-- Dot product of two equal-length vectors. -/
def dot (u v : List ℚ) : ℚ := (List.zipWith (· * ·) u v).sum

/-- `np.clip dist 0 2` from scipy's `correlation`/`cosine`. -/
def clipQ (x lo hi : ℚ) : ℚ := max lo (min x hi)

/-- scipy `distance.cosine`: `1 - uv / sqrt(uu * vv)`, clipped to `[0, 2]`.
When `uu * vv = 0` the float code divides `0.0` by `0.0`, which yields an
IEEE NaN (numpy emits a warning but does not raise); NaN is modelled as
`none`.  `sqrt` is `math.sqrt`, an external real-valued function, passed as a
parameter. -/
def cosineDist (sqrt : ℚ → ℚ) (u v : List ℚ) : Option ℚ :=
  if dot u u * dot v v = 0 then none
  else some (clipQ (1 - dot u v / sqrt (dot u u * dot v v)) 0 2)

/-- Cell 29's `distances_from_embeddings` with the `"cosine"` metric (the only
metric the query pipeline selects; the source's L1/L2/inf alternatives are not
exercised by any claim). -/
def distances_from_embeddings (sqrt : ℚ → ℚ) (q : List ℚ) (es : List (List ℚ)) :
    List (Option ℚ) :=
  es.map (cosineDist sqrt q)

/-- Cell 29's `get_embedding`: replace newlines by spaces, then call the
external embedding service (modelled by `embed`). -/
def get_embedding (embed : String → List ℚ) (text : String) : List ℚ :=
  embed (String.mk (text.data.map (fun c => if c = '\n' then ' ' else c)))

/-- The ordering that `df_copy.sort_values("distances", ascending=True)`
effectively applies to the distance column: numeric values ascending, and NaN
(`none`) placed after every numeric value (`na_position="last"`).  This is the
sort key order only; it does not claim NaN compares greater under IEEE. -/
def distLe : Option ℚ → Option ℚ → Prop
  | some a, some b => a ≤ b
  | none, some _ => False
  | _, none => True

instance : DecidableRel distLe := fun a b =>
  match a, b with
  | some x, some y => (inferInstance : Decidable (x ≤ y))
  | none, some _ => isFalse (fun h => h)
  | some _, none => isTrue trivial
  | none, none => isTrue trivial

/-- The row order used to sort the dataframe: compare rows by their distance
column. -/
def rankRel (p q : StoredFragment ℚ × Option ℚ) : Prop := distLe p.2 q.2

instance : DecidableRel rankRel := fun p q =>
  (inferInstance : Decidable (distLe p.2 q.2))

theorem distLe_total : ∀ a b : Option ℚ, distLe a b ∨ distLe b a
  | none, none => Or.inl trivial
  | none, some _ => Or.inr trivial
  | some _, none => Or.inl trivial
  | some x, some y => le_total x y

theorem distLe_trans : ∀ a b c : Option ℚ, distLe a b → distLe b c → distLe a c
  | none, _, none, _, _ => trivial
  | some _, _, none, _, _ => trivial
  | some x, some y, some z, h1, h2 => le_trans (a := x) (b := y) (c := z) h1 h2
  | none, some _, some _, h1, _ => h1.elim
  | some _, none, some _, _, h2 => h2.elim
  | none, none, some _, _, h2 => h2.elim

instance : IsTotal (StoredFragment ℚ × Option ℚ) rankRel :=
  ⟨fun p q => distLe_total p.2 q.2⟩

instance : IsTrans (StoredFragment ℚ × Option ℚ) rankRel :=
  ⟨fun p q r hpq hqr => distLe_trans p.2 q.2 r.2 hpq hqr⟩

/-- Cell 31's `get_rows_by_relevance`: embed the question, attach a distances
column, and sort ascending by it.  The sort is modelled as a stable insertion
sort; for the corpus sizes appearing in closed statements below (≤ 2 rows)
numpy's default sort is an insertion sort as well, so tie order agrees with
the code. -/
def get_rows_by_relevance (sqrt : ℚ → ℚ) (embed : String → List ℚ)
    (question : String) (df : List (StoredFragment ℚ)) :
    List (StoredFragment ℚ × Option ℚ) :=
  let q := get_embedding embed question
  List.insertionSort rankRel
    (df.zip (distances_from_embeddings sqrt q (df.map StoredFragment.embedding)))

/-- A concrete stand-in for `math.sqrt`, used only to instantiate closed
statements; it is exact at the arguments those statements use
(`math.sqrt 0 = 0`, `math.sqrt 1 = 1`, `math.sqrt 4 = 2`). -/
def sqrtQ (q : ℚ) : ℚ :=
  if q = 4 then 2 else if q = 1 then 1 else 0

/-! ### Token Budgeter and Context Assembler (cell 33) -/

/-- The fixed prompt template of `create_prompt`, split at its two `{}` slots
(`\x7b\x7d` is `{}`). -/
def tplPre : String :=
  "\nAnswer the question based on the context below, and if the question\ncan't be answered based on the context, say \"I don't know\"\n\nContext: \n\n"

/-- Template text between the context slot and the question slot. -/
def tplMid : String := "\n\n---\n\nQuestion: "

/-- Template text after the question slot. -/
def tplPost : String := "\nAnswer:"

/-- The `prompt_template` string literal of cell 33 (with its `{}` slots). -/
def promptTemplate : String :=
  tplPre ++ "\x7b\x7d" ++ tplMid ++ "\x7b\x7d" ++ tplPost

/-- Python `prompt_template.format(context, question)`: substitute the two
`{}` slots in order. -/
def pyFormat (context question : String) : String :=
  tplPre ++ context ++ tplMid ++ question ++ tplPost

/-- The separator `"\n\n###\n\n".join(context)` uses. -/
def ctxSep : String := "\n\n###\n\n"

/-- `"\n\n###\n\n".join(context)`. -/
def ctxJoin : List String → String
  | [] => ""
  | [s] => s
  | s :: ss => s ++ ctxSep ++ ctxJoin ss

/-- The selection loop of `create_prompt`: starting from the running count
`cur` (template + question tokens), add each ranked text's token count; if the
projected count stays below `maxTok`, keep the text, otherwise stop
immediately. -/
def selectContext (tok : String → Nat) (maxTok : Nat) : Nat → List String → List String
  | _, [] => []
  | cur, t :: ts =>
    let cur' := cur + tok t
    if cur' < maxTok then t :: selectContext tok maxTok cur' ts else []

/-- The context list `create_prompt` assembles for a question. -/
def createPromptContext (tok : String → Nat) (sqrt : ℚ → ℚ) (embed : String → List ℚ)
    (question : String) (df : List (StoredFragment ℚ)) (maxTok : Nat) : List String :=
  selectContext tok maxTok (tok promptTemplate + tok question)
    ((get_rows_by_relevance sqrt embed question df).map (fun p => p.1.text))

/-- Cell 33's `create_prompt`: count template and question tokens, greedily
select ranked fragment texts under the budget, join them, and render the
template. -/
def create_prompt (tok : String → Nat) (sqrt : ℚ → ℚ) (embed : String → List ℚ)
    (question : String) (df : List (StoredFragment ℚ)) (maxTok : Nat) : String :=
  pyFormat (ctxJoin (createPromptContext tok sqrt embed question df maxTok)) question

/-! ### answer_question (cell 35) -/

/-- A concrete tokenizer instance realising the token costs 5, 3, 100, 2 used
by the spec's first-overflow example (any other text costs 0 tokens). -/
def tokCost (s : String) : Nat :=
  if s = "A" then 5 else if s = "B" then 3
  else if s = "C" then 100 else if s = "D" then 2 else 0

/-- A concrete numeric rendering used to instantiate the persistence
round-trip: a unary numeral (kernel-friendly stand-in for the float
formatting; the round-trip theorem is parametric in the representation). -/
def unaryRender (n : Nat) : String := String.mk (List.replicate n '7')

/-- The parser inverse to `unaryRender`; like `float`, it ignores surrounding
spaces. -/
def unaryParse (s : String) : Nat := s.data.count '7'

/-- Cell 35's `answer_question`.  The completion boundary is
`complete prompt max_answer_tokens`, returning either the completion text or a
raised failure (`Except.error`).  The `print(e)` in the handler is modelled by
the returned log list. -/
def answer_question (complete : String → Nat → Except String String)
    (tok : String → Nat) (sqrt : ℚ → ℚ) (embed : String → List ℚ)
    (question : String) (df : List (StoredFragment ℚ))
    (maxPromptTokens maxAnswerTokens : Nat) : (String × String) × List String :=
  let prompt := create_prompt tok sqrt embed question df maxPromptTokens
  match complete prompt maxAnswerTokens with
  | Except.ok text => ((text, prompt), [])
  | Except.error e => (("", prompt), [e])

/-! ### Helper lemmas about the context selection loop -/

/-- If the selection loop accepted at least one fragment, the running count it
maintained — the start value plus the token counts of the accepted fragments,
counted individually — stayed strictly below the budget. -/
theorem selectContext_budget (tok : String → Nat) (maxTok : Nat) :
    ∀ (texts : List String) (cur : Nat),
      selectContext tok maxTok cur texts ≠ [] →
      cur + ((selectContext tok maxTok cur texts).map tok).sum < maxTok
  | [], _, h => absurd rfl h
  | t :: ts, cur, h => by
    simp only [selectContext] at h ⊢
    by_cases hc : cur + tok t < maxTok
    · rw [if_pos hc] at h ⊢
      simp only [List.map_cons, List.sum_cons]
      by_cases hne : selectContext tok maxTok (cur + tok t) ts = []
      · rw [hne]
        simpa using hc
      · have hrec := selectContext_budget tok maxTok ts (cur + tok t) hne
        omega
    · rw [if_neg hc] at h
      exact absurd rfl h

/-- If the budget is already exhausted by the start value, the selection loop
accepts nothing. -/
theorem selectContext_empty (tok : String → Nat) (maxTok : Nat)
    (texts : List String) (cur : Nat) (h : maxTok ≤ cur) :
    selectContext tok maxTok cur texts = [] := by
  cases texts with
  | nil => rfl
  | cons t ts =>
    simp only [selectContext]
    rw [if_neg]
    omega

/-! ### Claim C2: first-fit-then-stop context packing -/

/-- C2: context assembly follows a first-fit-then-stop policy.  Fragments are
taken in the ranked order `t1, t2, t3, t4, …`; with a budget admitting the
running totals after `t1` and `t2` but not after `t3`, the loop stops at `t3`
and the assembled context is exactly `[t1, t2]` — the fourth fragment is
excluded even when it alone would fit (witness: costs `[5, 3, 100, 2]`). -/
theorem create_prompt_first_overflow_stops (tok : String → Nat) (question : String)
    (t1 t2 t3 t4 : String) (rest : List String) (maxTok : Nat)
    (h1 : tok promptTemplate + tok question + tok t1 < maxTok)
    (h2 : tok promptTemplate + tok question + tok t1 + tok t2 < maxTok)
    (h3 : maxTok ≤ tok promptTemplate + tok question + tok t1 + tok t2 + tok t3) :
    selectContext tok maxTok (tok promptTemplate + tok question)
      (t1 :: t2 :: t3 :: t4 :: rest) = [t1, t2] := by
  simp only [selectContext]
  rw [if_pos h1, if_pos h2, if_neg (by omega)]

/-- Witness for C2 at the spec's own cost vector: `tokCost` gives `"A","B",
"C","D"` the token costs `5, 3, 100, 2` (and the template and empty question
cost 0); with budget 20 the assembled context is exactly `["A", "B"]`. -/
theorem create_prompt_first_overflow_stops_witness :
    selectContext tokCost 20 (tokCost promptTemplate + tokCost "")
      ["A", "B", "C", "D"] = ["A", "B"] :=
  create_prompt_first_overflow_stops tokCost "" "A" "B" "C" "D" [] 20
    (by decide) (by decide) (by decide)

/-! ### Claim C1: the token budget -/

/-- C1 counterexample: the claim says the total token count of template +
question + joined context block is never `≥ max_token_count`.  The loop counts
fragments individually and never counts the `"\n\n###\n\n"` join separator
(under the real `cl100k_base` tokenizer that separator also costs tokens).
With the tokenizer instance `count_tokens = String.length`, a corpus of two
one-character fragments and a budget of `template + 4` tokens, both fragments
are accepted, and the joined context block alone is 9 characters, so the
total is `≥ max_token_count`, refuting the claim. -/
theorem create_prompt_budget_counterexample :
    promptTemplate.length + "q".length
      + (ctxJoin (createPromptContext String.length sqrtQ (fun _ => [1]) "q"
          [⟨"a", [1]⟩, ⟨"b", [1]⟩] (promptTemplate.length + 4))).length
      ≥ promptTemplate.length + 4 := by
  have h11 : cosineDist sqrtQ [1] [1] = some 0 := by
    simp [cosineDist, dot, clipQ, sqrtQ]
  have hrank : get_rows_by_relevance sqrtQ (fun _ => [1]) "q"
      [⟨"a", [1]⟩, ⟨"b", [1]⟩]
      = [(⟨"a", [1]⟩, some 0), (⟨"b", [1]⟩, some 0)] := by
    simp [get_rows_by_relevance, distances_from_embeddings, get_embedding, h11,
      List.insertionSort, List.orderedInsert, rankRel, distLe]
  rw [createPromptContext, hrank]
  decide

/-- C1 amended: what the code guarantees is about the running count it
maintains — template + question + the token counts of the accepted fragments
summed individually (join separators not counted): whenever the context is
non-empty that running count is strictly below `max_token_count`; and for any
`max_token_count` lower than the template + question token count the selected
context is empty (this second part of the claim holds as stated). -/
theorem create_prompt_budget_amended (tok : String → Nat) (sqrt : ℚ → ℚ)
    (embed : String → List ℚ) (question : String)
    (df : List (StoredFragment ℚ)) (maxTok : Nat) :
    (createPromptContext tok sqrt embed question df maxTok ≠ [] →
      tok promptTemplate + tok question
        + ((createPromptContext tok sqrt embed question df maxTok).map tok).sum
        < maxTok)
    ∧ (maxTok < tok promptTemplate + tok question →
        createPromptContext tok sqrt embed question df maxTok = []) := by
  constructor
  · intro hne
    exact selectContext_budget tok maxTok _ _ hne
  · intro hlt
    exact selectContext_empty tok maxTok _ _ (le_of_lt hlt)

/-- Witness for C1 amended, discharging each hypothesis: with a zero-cost
tokenizer and budget 1 a one-fragment corpus yields a non-empty context whose
running count stays below the budget, and with `count_tokens = String.length`
and budget 0 (below the template + question cost) the context is empty. -/
theorem create_prompt_budget_amended_witness :
    (String.length promptTemplate + String.length "q"
        + ((createPromptContext String.length sqrtQ (fun _ => [1]) "q"
            [⟨"a", [1]⟩] 0).map String.length).sum
        < 0 → False)
    ∧ createPromptContext (fun _ => 0) sqrtQ (fun _ => [1]) "q" [⟨"a", [1]⟩] 1 ≠ []
    ∧ (fun _ => (0 : Nat)) promptTemplate + (fun _ => (0 : Nat)) "q"
        + ((createPromptContext (fun _ => 0) sqrtQ (fun _ => [1]) "q"
            [⟨"a", [1]⟩] 1).map (fun _ => 0)).sum < 1
    ∧ createPromptContext String.length sqrtQ (fun _ => [1]) "q" [⟨"a", [1]⟩] 0 = [] :=
  ⟨fun h => absurd h (by decide),
   by decide,
   (create_prompt_budget_amended (fun _ => 0) sqrtQ (fun _ => [1]) "q" [⟨"a", [1]⟩] 1).1
     (by decide),
   (create_prompt_budget_amended String.length sqrtQ (fun _ => [1]) "q" [⟨"a", [1]⟩] 0).2
     (by decide)⟩

/-! ### Claims C9 and C10: answer_question -/

/-- C9: when the completion boundary raises (`Except.error e`),
`answer_question` does not propagate the failure: it returns the pair
`("", prompt)` with the prompt that was attempted, and reports the cause
(the notebook's `print(e)`, modelled here by the returned log containing
exactly `e`). -/
theorem answer_question_swallows_failure
    (complete : String → Nat → Except String String)
    (tok : String → Nat) (sqrt : ℚ → ℚ) (embed : String → List ℚ)
    (question : String) (df : List (StoredFragment ℚ))
    (maxPromptTokens maxAnswerTokens : Nat) (e : String)
    (h : complete (create_prompt tok sqrt embed question df maxPromptTokens)
          maxAnswerTokens = Except.error e) :
    answer_question complete tok sqrt embed question df maxPromptTokens maxAnswerTokens
      = (("", create_prompt tok sqrt embed question df maxPromptTokens), [e]) := by
  simp only [answer_question]
  rw [h]

/-- Witness for C9: a completion stub that always raises `"boom"`. -/
theorem answer_question_swallows_failure_witness :
    answer_question (fun _ _ => Except.error "boom") String.length sqrtQ
      (fun _ => []) "q" [] 0 0
      = (("", create_prompt String.length sqrtQ (fun _ => []) "q" [] 0), ["boom"]) :=
  answer_question_swallows_failure (fun _ _ => Except.error "boom") String.length
    sqrtQ (fun _ => []) "q" [] 0 0 "boom" rfl

/-- C10: in both the success and the failure branch, the second component of
`answer_question`'s returned pair is exactly the prompt produced by
`create_prompt question df max_prompt_tokens`. -/
theorem answer_question_returns_create_prompt
    (complete : String → Nat → Except String String)
    (tok : String → Nat) (sqrt : ℚ → ℚ) (embed : String → List ℚ)
    (question : String) (df : List (StoredFragment ℚ))
    (maxPromptTokens maxAnswerTokens : Nat) :
    (answer_question complete tok sqrt embed question df maxPromptTokens
        maxAnswerTokens).1.2
      = create_prompt tok sqrt embed question df maxPromptTokens := by
  simp only [answer_question]
  cases complete (create_prompt tok sqrt embed question df maxPromptTokens)
    maxAnswerTokens <;> rfl

/-! ### Claim C3: date carry-forward -/

/-- C3: scanning lines in order with a current-date accumulator, every line
that does not parse as dated is prefixed with the most recently parsed date
plus the separator; on the spec's example input (section/empty lines already
absent), the output fragments are exactly the five date-qualified lines.  The
external date parser is any predicate behaving like dateutil on the five
leading tokens involved. -/
theorem preprocess_date_carry_forward (dparse : String → Bool)
    (h1 : dparse "2023-01-01" = true) (h2 : dparse "2023-02-01" = true)
    (h3 : dparse "B" = false) (h4 : dparse "C" = false) (h5 : dparse "E" = false) :
    (preprocess dparse ["2023-01-01 – A", "B", "C", "2023-02-01 – D", "E"]).map
        PreFragment.text
      = ["2023-01-01 – A", "2023-01-01 – B", "2023-01-01 – C",
         "2023-02-01 – D", "2023-02-01 – E"] := by
  have d1 : is_date dparse "2023-01-01 – A" = (true, some "2023-01-01") := by
    unfold is_date
    rw [show pyStrip ((pySplitOn '–' "2023-01-01 – A").headD "2023-01-01 – A")
          = "2023-01-01" from by decide]
    simp [h1]
  have d2 : is_date dparse "B" = (false, none) := by
    unfold is_date
    rw [show pyStrip ((pySplitOn '–' "B").headD "B") = "B" from by decide]
    simp [h3]
  have d3 : is_date dparse "C" = (false, none) := by
    unfold is_date
    rw [show pyStrip ((pySplitOn '–' "C").headD "C") = "C" from by decide]
    simp [h4]
  have d4 : is_date dparse "2023-02-01 – D" = (true, some "2023-02-01") := by
    unfold is_date
    rw [show pyStrip ((pySplitOn '–' "2023-02-01 – D").headD "2023-02-01 – D")
          = "2023-02-01" from by decide]
    simp [h2]
  have d5 : is_date dparse "E" = (false, none) := by
    unfold is_date
    rw [show pyStrip ((pySplitOn '–' "E").headD "E") = "E" from by decide]
    simp [h5]
  have hclean : cleanLines ["2023-01-01 – A", "B", "C", "2023-02-01 – D", "E"]
      = ["2023-01-01 – A", "B", "C", "2023-02-01 – D", "E"] := by decide
  unfold preprocess
  rw [hclean]
  unfold dateQualify
  simp only [carryForward, d1, d2, d3, d4, d5]
  decide

/-- Witness for C3, instantiating the date parser with the concrete
ISO-date recogniser. -/
theorem preprocess_date_carry_forward_witness :
    (preprocess parseISO ["2023-01-01 – A", "B", "C", "2023-02-01 – D", "E"]).map
        PreFragment.text
      = ["2023-01-01 – A", "2023-01-01 – B", "2023-01-01 – C",
         "2023-02-01 – D", "2023-02-01 – E"] :=
  preprocess_date_carry_forward parseISO (by decide) (by decide) (by decide)
    (by decide) (by decide)

/-! ### Claim C4: the date-prefix invariant on preprocessing output -/

/-- C4 counterexample: the surviving-row filter is `str.contains("–")`, not
"begins with a date".  A line containing the separator but preceding any
parseable date (dateutil rejects `"a"`) survives preprocessing with an absent
`date_tag`, refuting the claimed invariant that every surviving fragment has a
non-absent `date_tag`. -/
theorem preprocess_fragment_invariant_counterexample :
    (preprocess parseISO ["a – b"]).map PreFragment.dateTag = [none] := by decide

/-- Every fragment the carry-forward branch rewrote carries the date it was
prefixed with, and its text is literally that date, the separator, and the
original line. -/
theorem carryForward_prefixed (dparse : String → Bool) (lines : List String) :
    ∀ (cur : Option String) (f : PreFragment),
      f ∈ carryForward dparse cur lines → f.prefixed = true →
      ∃ c r, f.dateTag = some c ∧ f.text = c ++ " – " ++ r := by
  induction lines with
  | nil =>
    intro cur f hf _
    simp [carryForward] at hf
  | cons line rest ih =>
    intro cur f hf hp
    rcases hr : is_date dparse line with ⟨b, o⟩
    simp only [carryForward] at hf
    rw [hr] at hf
    simp only [List.mem_cons] at hf
    rcases hf with rfl | hmem
    · cases b with
      | true =>
        cases o with
        | none => simp at hp
        | some c => simp at hp
      | false =>
        cases cur with
        | none => simp at hp
        | some c => exact ⟨c, line, rfl, rfl⟩
    · cases b with
      | true => exact ih _ f hmem hp
      | false => exact ih _ f hmem hp

/-- C4 amended: every fragment surviving preprocessing contains the separator
character `–` in its text, and every fragment that the carry-forward step
date-prefixed has a non-absent `date_tag` with `text = date_tag ++ " – " ++
original line` (so it begins with its `date_tag` followed by the separator).
A line that contains `–` without any date parsed at or before it survives
with an absent `date_tag` (see the counterexample), which is what the
original claim overlooked. -/
theorem preprocess_fragment_invariant_amended (dparse : String → Bool)
    (lines : List String) (f : PreFragment) (hf : f ∈ preprocess dparse lines) :
    pyContainsChar '–' f.text = true
    ∧ (f.prefixed = true → ∃ c r, f.dateTag = some c ∧ f.text = c ++ " – " ++ r) := by
  unfold preprocess dateQualify at hf
  rw [List.mem_filter] at hf
  exact ⟨hf.2, fun hp => carryForward_prefixed dparse (cleanLines lines) none f hf.1 hp⟩

/-- Witness for C4 amended: the carry-forward fragment produced from line
`"B"` after `"2023-01-01 – A"`. -/
theorem preprocess_fragment_invariant_amended_witness :
    pyContainsChar '–' (PreFragment.mk "2023-01-01 – B" (some "2023-01-01") true).text
      = true
    ∧ ((PreFragment.mk "2023-01-01 – B" (some "2023-01-01") true).prefixed = true →
        ∃ c r, (PreFragment.mk "2023-01-01 – B" (some "2023-01-01") true).dateTag = some c
          ∧ (PreFragment.mk "2023-01-01 – B" (some "2023-01-01") true).text
              = c ++ " – " ++ r) :=
  preprocess_fragment_invariant_amended parseISO ["2023-01-01 – A", "B"]
    ⟨"2023-01-01 – B", some "2023-01-01", true⟩ (by decide)

/-! ### Claim C6: cosine distance on a zero vector -/

/-- C6 counterexample: against a zero query vector the code computes
`1.0 - 0.0/math.sqrt(0.0)`, an IEEE division of zero by zero yielding NaN
(modelled as `none`).  No exception is raised, but the result carries no
numeric distance value at all, so it is not "a maximal distance value larger
than any regular distance" as claimed — the division by zero does happen and
produces NaN instead. -/
theorem cosine_zero_vector_counterexample :
    cosineDist sqrtQ [0] [1] = none
    ∧ ¬ ∃ m : ℚ, cosineDist sqrtQ [0] [1] = some m := by
  have h : cosineDist sqrtQ [0] [1] = none := by simp [cosineDist, dot]
  refine ⟨h, ?_⟩
  rintro ⟨m, hm⟩
  rw [h] at hm
  cases hm

/-- C6 amended: for a degenerate zero vector (query or stored embedding) the
cosine distance does not raise — it is total and returns NaN (`none`) from
the zero division; the sort-key order that ranking applies
(`na_position="last"`) places this NaN after every numeric distance and never
before one, so the pair is treated as maximally distant by the ranking even
though NaN itself is not a comparable numeric value. -/
theorem cosine_zero_vector_amended (sqrt : ℚ → ℚ) (u v : List ℚ)
    (h : dot u u = 0 ∨ dot v v = 0) :
    cosineDist sqrt u v = none
    ∧ ∀ x : ℚ, distLe (some x) (cosineDist sqrt u v)
      ∧ ¬ distLe (cosineDist sqrt u v) (some x) := by
  have hz : dot u u * dot v v = 0 := by
    rcases h with h | h <;> simp [h]
  have hn : cosineDist sqrt u v = none := by
    simp [cosineDist, hz]
  refine ⟨hn, fun x => ?_⟩
  rw [hn]
  exact ⟨trivial, fun hle => hle⟩

/-- Witness for C6 amended at the zero query vector `[0, 0]` against the
stored embedding `[1, 2]`, with the numeric distance `3` as comparison
point. -/
theorem cosine_zero_vector_amended_witness :
    cosineDist sqrtQ [0, 0] [1, 2] = none
    ∧ distLe (some 3) (cosineDist sqrtQ [0, 0] [1, 2])
    ∧ ¬ distLe (cosineDist sqrtQ [0, 0] [1, 2]) (some 3) :=
  ⟨(cosine_zero_vector_amended sqrtQ [0, 0] [1, 2] (Or.inl (by simp [dot]))).1,
   ((cosine_zero_vector_amended sqrtQ [0, 0] [1, 2] (Or.inl (by simp [dot]))).2 3).1,
   ((cosine_zero_vector_amended sqrtQ [0, 0] [1, 2] (Or.inl (by simp [dot]))).2 3).2⟩

/-! ### Claim C8: ranking a query identical to a stored embedding -/

/-- Every cosine distance the ranker computes is, under the sort-key order,
at least `some 0`: it is either NaN (`none`, sorted last) or a clipped
non-negative numeric value. -/
theorem cosineDist_ge_zero (sqrt : ℚ → ℚ) (u v : List ℚ) :
    distLe (some 0) (cosineDist sqrt u v) := by
  unfold cosineDist
  split
  · trivial
  · exact le_max_left 0 _

theorem distLe_antisymm_zero : ∀ a : Option ℚ,
    distLe a (some 0) → distLe (some 0) a → a = some 0
  | none, h1, _ => h1.elim
  | some m, h1, h2 => by
    have : m = 0 := le_antisymm h1 h2
    rw [this]

/-- The cosine distance of a non-degenerate vector to itself is exactly 0
(given that `sqrt` is exact on the square involved, as `math.sqrt` is up to
rounding). -/
theorem cosineDist_self (sqrt : ℚ → ℚ) (q : List ℚ)
    (hq : dot q q ≠ 0) (hsq : sqrt (dot q q * dot q q) = dot q q) :
    cosineDist sqrt q q = some 0 := by
  unfold cosineDist
  rw [if_neg (mul_ne_zero hq hq), hsq]
  rw [div_self hq]
  norm_num [clipQ]

theorem zip_map_pair {α β : Type} : ∀ (l : List α) (g : α → β),
    l.zip (l.map g) = l.map (fun a => (a, g a))
  | [], _ => rfl
  | a :: as, g => by
    simp only [List.map_cons, List.zip_cons_cons]
    rw [zip_map_pair as g]

/-- Attaching the distances column pairs every row with its own cosine
distance. -/
theorem zip_distances (sqrt : ℚ → ℚ) (q : List ℚ) (df : List (StoredFragment ℚ)) :
    df.zip (distances_from_embeddings sqrt q (df.map StoredFragment.embedding))
      = df.map (fun f => (f, cosineDist sqrt q f.embedding)) := by
  unfold distances_from_embeddings
  rw [List.map_map]
  exact zip_map_pair df _

/-- C8 counterexample: the claim's hypothesis excludes duplicate identical
vectors but not distinct vectors at cosine distance 0.  With query vector
`[1]` and corpus embeddings `[[2], [1]]` — no two identical — the scalar
multiple `[2]` also has cosine distance 0 (`1 - 2/sqrt(1*4) = 0`), and the
sort keeps it first, so the fragment identical to the query ranks second,
refuting "that fragment ranks first".  (On two equal keys numpy's sort, like
this model, keeps the original order.) -/
theorem ranking_identical_first_counterexample :
    ([2] : List ℚ) ≠ [1]
    ∧ cosineDist sqrtQ [1] [1] = some 0
    ∧ (get_rows_by_relevance sqrtQ (fun _ => [1]) "q"
        [⟨"double", [2]⟩, ⟨"same", [1]⟩]).map (fun p => p.1.text)
      = ["double", "same"] := by
  have h11 : cosineDist sqrtQ [1] [1] = some 0 := by
    norm_num [cosineDist, dot, sqrtQ, clipQ]
  have h12 : cosineDist sqrtQ [1] [2] = some 0 := by
    norm_num [cosineDist, dot, sqrtQ, clipQ]
  have hr : get_rows_by_relevance sqrtQ (fun _ => [1]) "q"
      [⟨"double", [2]⟩, ⟨"same", [1]⟩]
      = [(⟨"double", [2]⟩, some 0), (⟨"same", [1]⟩, some 0)] := by
    simp only [get_rows_by_relevance, get_embedding]
    rw [zip_distances]
    simp only [List.map_cons, List.map_nil, h11, h12]
    simp [List.insertionSort, List.orderedInsert, rankRel, distLe]
  refine ⟨by norm_num, h11, ?_⟩
  rw [hr]
  rfl

/-- C8 amended: if the query vector is non-degenerate, is identical to
exactly one stored embedding, and — the condition the original claim misses —
no other stored embedding attains cosine distance 0 to the query (e.g. no
positive scalar multiple of it), then that fragment ranks first with cosine
distance 0. -/
theorem ranking_identical_first_amended (sqrt : ℚ → ℚ) (embed : String → List ℚ)
    (question : String) (df : List (StoredFragment ℚ)) (q : List ℚ)
    (i : Nat) (hi : i < df.length)
    (hqdef : get_embedding embed question = q)
    (hq : dot q q ≠ 0)
    (hsq : sqrt (dot q q * dot q q) = dot q q)
    (hid : (df.get ⟨i, hi⟩).embedding = q)
    (huniq : ∀ g ∈ df, g.embedding = q → g = df.get ⟨i, hi⟩)
    (hothers : ∀ g ∈ df, g.embedding ≠ q → cosineDist sqrt q g.embedding ≠ some 0) :
    (get_rows_by_relevance sqrt embed question df).head?
      = some (df.get ⟨i, hi⟩, some 0) := by
  have hdq : cosineDist sqrt q q = some 0 := cosineDist_self sqrt q hq hsq
  simp only [get_rows_by_relevance]
  rw [hqdef, zip_distances]
  set L := df.map (fun f => (f, cosineDist sqrt q f.embedding)) with hL
  set S := List.insertionSort rankRel L with hS
  have hsorted : List.Sorted rankRel S := List.sorted_insertionSort rankRel L
  have hperm : S.Perm L := List.perm_insertionSort rankRel L
  have hTmem : (df.get ⟨i, hi⟩, (some 0 : Option ℚ)) ∈ L := by
    rw [hL]
    have : (df.get ⟨i, hi⟩, (some 0 : Option ℚ))
        = (fun f => (f, cosineDist sqrt q f.embedding)) (df.get ⟨i, hi⟩) := by
      simp only [hid, hdq]
    rw [this]
    exact List.mem_map_of_mem _ (df.get_mem i hi)
  have hSne : S ≠ [] := by
    intro h
    rw [h] at hperm
    have := hperm.symm.eq_nil
    rw [hL] at this
    simp at this
    rw [this] at hi
    simp at hi
  cases hScons : S with
  | nil => exact absurd hScons hSne
  | cons x rest =>
    have hxmem : x ∈ L := hperm.mem_iff.mp (hScons ▸ List.mem_cons_self x rest)
    rw [hL] at hxmem
    rcases List.mem_map.mp hxmem with ⟨g, hgmem, hgx⟩
    by_cases hge : g.embedding = q
    · have hg : g = df.get ⟨i, hi⟩ := huniq g hgmem hge
      rw [← hgx, hge, hdq, hg]
      rfl
    · exfalso
      have hne0 : cosineDist sqrt q g.embedding ≠ some 0 := hothers g hgmem hge
      have hT_in_S : (df.get ⟨i, hi⟩, (some 0 : Option ℚ)) ∈ S := hperm.mem_iff.mpr hTmem
      rw [hScons] at hT_in_S
      rcases List.mem_cons.mp hT_in_S with hTx | hTrest
      · have : g = df.get ⟨i, hi⟩ :=
          (congrArg Prod.fst (hTx.trans hgx.symm)).symm
        rw [this, hid] at hge
        exact hge rfl
      · have hrel : rankRel x (df.get ⟨i, hi⟩, (some 0 : Option ℚ)) := by
          have := List.rel_of_sorted_cons (hScons ▸ hsorted)
          exact this _ hTrest
        rw [← hgx] at hrel
        have h1 : distLe (cosineDist sqrt q g.embedding) (some 0) := hrel
        have h2 : distLe (some 0) (cosineDist sqrt q g.embedding) :=
          cosineDist_ge_zero sqrt q g.embedding
        exact hne0 (distLe_antisymm_zero _ h1 h2)

/-- Witness for C8 amended: query `[1]` against a corpus holding a degenerate
zero embedding and the identical embedding `[1]`; the identical fragment
ranks first with distance 0 (`math.sqrt` instantiated with `id`, exact at the
argument `1` used here). -/
theorem ranking_identical_first_amended_witness :
    (get_rows_by_relevance id (fun _ => [1]) "q"
        [⟨"zero", [0]⟩, ⟨"same", [1]⟩]).head?
      = some (⟨"same", [1]⟩, some 0) :=
  ranking_identical_first_amended id (fun _ => [1]) "q"
    [⟨"zero", [0]⟩, ⟨"same", [1]⟩] [1] 1 (by decide)
    rfl (by simp [dot]) (by simp [dot]) rfl
    (fun g hg he => by
      rcases List.mem_cons.mp hg with rfl | h2
      · exact absurd he (by simp)
      · rcases List.mem_cons.mp h2 with rfl | h3
        · rfl
        · exact absurd h3 (List.not_mem_nil g))
    (fun g hg hne => by
      rcases List.mem_cons.mp hg with rfl | h2
      · simp [cosineDist, dot]
      · rcases List.mem_cons.mp h2 with rfl | h3
        · exact absurd rfl hne
        · exact absurd h3 (List.not_mem_nil g))

/-! ### Claim C5: corpus persistence round-trip -/

theorem charSplit_no_sep (sep : Char) : ∀ (l : List Char), (∀ c ∈ l, c ≠ sep) →
    charSplit sep l = [l]
  | [], _ => rfl
  | c :: cs, h => by
    have hc : ¬ c = sep := h c (List.mem_cons_self c cs)
    simp only [charSplit, if_neg hc]
    rw [charSplit_no_sep sep cs (fun x hx => h x (List.mem_cons_of_mem c hx))]

theorem charSplit_append (sep : Char) : ∀ (l r : List Char), (∀ c ∈ l, c ≠ sep) →
    charSplit sep (l ++ sep :: r) = l :: charSplit sep r
  | [], r, _ => by simp [charSplit]
  | c :: cs, r, h => by
    have hc : ¬ c = sep := h c (List.mem_cons_self c cs)
    simp only [List.cons_append, charSplit, if_neg hc, List.append_eq]
    rw [charSplit_append sep cs r (fun x hx => h x (List.mem_cons_of_mem c hx))]

theorem dropWhile_head_false {p : Char → Bool} (c : Char) (cs : List Char)
    (h : p c = false) : (c :: cs).dropWhile p = c :: cs := by
  simp [List.dropWhile_cons, h]

/-- `strip("[]")` of a bracket-wrapped, bracket-free middle returns the
middle. -/
theorem strip_wrap : ∀ (mid : List Char), (∀ c ∈ mid, isBracket c = false) →
    stripEnds isBracket ('[' :: mid ++ [']']) = mid := by
  intro mid hmem
  cases mid with
  | nil => decide
  | cons m ms =>
    unfold stripEnds
    have h1 : ('[' :: (m :: ms) ++ [']']).dropWhile isBracket = (m :: ms) ++ [']'] := by
      rw [show ('[' :: (m :: ms) ++ [']']).dropWhile isBracket
          = ((m :: ms) ++ [']']).dropWhile isBracket by simp [List.dropWhile_cons, isBracket]]
      rw [List.cons_append]
      exact dropWhile_head_false m (ms ++ [']']) (hmem m (List.mem_cons_self m ms))
    rw [h1]
    have h2 : ((m :: ms) ++ [']']).reverse = ']' :: (m :: ms).reverse := by
      rw [List.reverse_append]
      rfl
    rw [h2]
    rw [show (']' :: (m :: ms).reverse).dropWhile isBracket
        = (m :: ms).reverse.dropWhile isBracket by simp [List.dropWhile_cons, isBracket]]
    cases hrev : (m :: ms).reverse with
    | nil => exact absurd hrev (by simp)
    | cons d ds =>
      have hd : d ∈ (m :: ms).reverse := by rw [hrev]; exact List.mem_cons_self d ds
      rw [List.mem_reverse] at hd
      rw [dropWhile_head_false d ds (hmem d hd), ← hrev, List.reverse_reverse]

theorem commaJoin_chars : ∀ (rs : List String),
    (∀ r ∈ rs, ∀ c ∈ r.data, isBracket c = false) →
    ∀ c ∈ (commaJoin rs).data, isBracket c = false
  | [], _, c, hc => absurd hc (by simp [commaJoin])
  | [s], h, c, hc => h s (List.mem_cons_self s []) c (by simpa [commaJoin] using hc)
  | s :: t :: ts, h, c, hc => by
    have hdata : (commaJoin (s :: t :: ts)).data
        = s.data ++ ',' :: ' ' :: (commaJoin (t :: ts)).data := by
      show ((s ++ ", ") ++ commaJoin (t :: ts)).data = _
      rw [String.data_append, String.data_append, List.append_assoc]
      rfl
    rw [hdata] at hc
    rcases List.mem_append.mp hc with h1 | h2
    · exact h s (List.mem_cons_self s (t :: ts)) c h1
    · rcases List.mem_cons.mp h2 with rfl | h3
      · rfl
      · rcases List.mem_cons.mp h3 with rfl | h4
        · rfl
        · exact commaJoin_chars (t :: ts)
            (fun r hr => h r (List.mem_cons_of_mem s hr)) c h4

/-- Splitting the comma-joined renderings on commas and parsing each chunk
(with its leading space, after the first) recovers the original values. -/
theorem chunks_of_join {α : Type} (render : α → String) (parseNum : String → α) :
    ∀ (e : List α),
      (∀ x ∈ e, parseNum (render x) = x ∧ parseNum (" " ++ render x) = x
        ∧ ∀ c ∈ (render x).data, c ≠ ',') →
      e ≠ [] →
      (charSplit ',' (commaJoin (e.map render)).data).map
          (fun cs => parseNum (String.mk cs)) = e
      ∧ (charSplit ',' (' ' :: (commaJoin (e.map render)).data)).map
          (fun cs => parseNum (String.mk cs)) = e
  | [], _, hne => absurd rfl hne
  | [x], h, _ => by
    have hx := h x (List.mem_cons_self x [])
    constructor
    · show (charSplit ',' (render x).data).map (fun cs => parseNum (String.mk cs)) = [x]
      rw [charSplit_no_sep ',' (render x).data hx.2.2]
      show [parseNum (String.mk (render x).data)] = [x]
      rw [show String.mk (render x).data = render x from rfl, hx.1]
    · show (charSplit ',' (' ' :: (render x).data)).map
          (fun cs => parseNum (String.mk cs)) = [x]
      rw [charSplit_no_sep ',' (' ' :: (render x).data) ?hc]
      case hc =>
        intro c hc
        rcases List.mem_cons.mp hc with rfl | h2
        · decide
        · exact hx.2.2 c h2
      show [parseNum (String.mk (' ' :: (render x).data))] = [x]
      rw [show String.mk (' ' :: (render x).data) = " " ++ render x from
        String.ext (by rw [String.data_append]; rfl), hx.2.1]
  | x :: y :: tl, h, _ => by
    have hx := h x (List.mem_cons_self x (y :: tl))
    have ih := chunks_of_join render parseNum (y :: tl)
      (fun z hz => h z (List.mem_cons_of_mem x hz)) (by simp)
    simp only [List.map_cons] at ih
    have hJ : (commaJoin ((x :: y :: tl).map render)).data
        = (render x).data ++ ',' :: ' ' :: (commaJoin ((y :: tl).map render)).data := by
      show ((render x ++ ", ") ++ commaJoin ((y :: tl).map render)).data = _
      rw [String.data_append, String.data_append, List.append_assoc]
      rfl
    constructor
    · rw [hJ, charSplit_append ',' (render x).data _ hx.2.2]
      simp only [List.map_cons]
      rw [show String.mk (render x).data = render x from rfl, hx.1, ih.2]
    · rw [hJ, show (' ' :: ((render x).data ++ ',' :: ' '
          :: (commaJoin ((y :: tl).map render)).data))
          = (' ' :: (render x).data) ++ ',' :: ' '
            :: (commaJoin ((y :: tl).map render)).data from rfl]
      rw [charSplit_append ',' (' ' :: (render x).data) _ ?hc2]
      case hc2 =>
        intro c hc
        rcases List.mem_cons.mp hc with rfl | h2
        · decide
        · exact hx.2.2 c h2
      simp only [List.map_cons]
      rw [show String.mk (' ' :: (render x).data) = " " ++ render x from
        String.ext (by rw [String.data_append]; rfl), hx.2.1, ih.2]

/-- The embeddings cell round-trips: parsing the rendered
`"[x0, x1, ...]"` recovers the original vector. -/
theorem fromString_embToString {α : Type} (render : α → String) (parseNum : String → α)
    (e : List α) (hne : e ≠ [])
    (h : ∀ x ∈ e, parseNum (render x) = x ∧ parseNum (" " ++ render x) = x
      ∧ (∀ c ∈ (render x).data, c ≠ ',') ∧ ∀ c ∈ (render x).data, isBracket c = false) :
    fromString parseNum (embToString render e) = e := by
  have hchars : ∀ c ∈ (commaJoin (e.map render)).data, isBracket c = false := by
    apply commaJoin_chars
    intro r hr c hc
    rcases List.mem_map.mp hr with ⟨x, hx, rfl⟩
    exact (h x hx).2.2.2 c hc
  have hdata : ("[" ++ commaJoin (e.map render) ++ "]").data
      = '[' :: (commaJoin (e.map render)).data ++ [']'] := by
    rw [String.data_append, String.data_append]
    rfl
  show (charSplit ','
      (stripEnds isBracket ("[" ++ commaJoin (e.map render) ++ "]").data)).map
      (fun cs => parseNum (String.mk cs)) = e
  rw [hdata, strip_wrap _ hchars]
  exact (chunks_of_join render parseNum e
    (fun x hx => ⟨(h x hx).1, (h x hx).2.1, (h x hx).2.2.1⟩) hne).1

/-- C5: corpus persistence round-trips.  For every valid corpus (non-absent,
non-empty embeddings) and any numeric representation whose parser inverts its
renderer — also on a space-prefixed chunk, as the float parser does — and whose
rendered values contain no commas or brackets (as float renderings do not),
`load (save c) = c`: element order, texts, and embedding values are all
preserved exactly to the precision of the representation. -/
theorem load_save {α : Type} (render : α → String) (parseNum : String → α) :
    ∀ (c : List (StoredFragment α)),
      (∀ f ∈ c, f.embedding ≠ [] ∧ ∀ x ∈ f.embedding,
        parseNum (render x) = x ∧ parseNum (" " ++ render x) = x
        ∧ (∀ ch ∈ (render x).data, ch ≠ ',')
        ∧ ∀ ch ∈ (render x).data, isBracket ch = false) →
      load parseNum (save render c) = c
  | [], _ => rfl
  | f :: fs, H => by
    have hf := H f (List.mem_cons_self f fs)
    have ih := load_save render parseNum fs
      (fun g hg => H g (List.mem_cons_of_mem f hg))
    show (⟨f.text, fromString parseNum (embToString render f.embedding)⟩ : StoredFragment α)
        :: load parseNum (save render fs) = f :: fs
    rw [fromString_embToString render parseNum f.embedding hf.1 hf.2, ih]

/-- Witness for C5 with the concrete unary numeral representation and a
two-row corpus. -/
theorem load_save_witness :
    load unaryParse (save unaryRender [⟨"A", [2, 0, 1]⟩, ⟨"B", [1]⟩])
      = [⟨"A", [2, 0, 1]⟩, ⟨"B", [1]⟩] :=
  load_save unaryRender unaryParse [⟨"A", [2, 0, 1]⟩, ⟨"B", [1]⟩] (by decide)
